import Mathlib

/-!
Verification of the asynchronous task-completion poller `wait_for_task`
from `fortimanager_mcp/tools/system_tools.py`, together with the
device-status decoding table `DEV_STATUS` from
`fortimanager_mcp/tools/dvm_tools.py`.

Embedding notes.  The poller is an async Python loop; we embed it under
the cooperative clock model: elapsed time advances by `poll_interval`
per sleep, and the elapsed check precedes each fetch (exactly the order
of operations in the source).  The environment (the external system's
answers to `client.get_task`) is a finite list of fetch results, one per
fetch the poller performs; each entry is either a task payload or an
exception raised by the fetch.  A run over such a trace yields
`some outcome` once the loop returns, or `none` when the trace is too
short to determine the outcome (the poller would fetch again).  The
source's task payload is a JSON dict whose only inspected field is
`"state"`, which may be absent, a string, an integer, or a value of any
other type; the remaining fields are abstracted by a tag `extra` that
gives payloads their identity.
-/

namespace FMG

/-- The value of the `"state"` field of a fetched task: a string, an
integer, or a value of any other type (the source only ever inspects
`isinstance(..., str)` / `isinstance(..., int)`). -/
inductive StateVal where
  | str (s : String)
  | int (n : Int)
  | other
deriving DecidableEq, Repr

/-- A task payload returned by `client.get_task`: an optional `"state"`
field plus the rest of the dict, abstracted as an identity tag. -/
structure Task where
  state : Option StateVal
  extra : Nat
deriving DecidableEq, Repr

/-- The result of one call to `client.get_task`: either a task payload,
or an exception carrying its message `str(e)`. -/
inductive FetchResult where
  | ok (t : Task)
  | exn (msg : String)
deriving DecidableEq, Repr

/-- The dict returned by `wait_for_task`.  The source's timeout and
exception branches build a dict without a `"task"` key, so `task` is an
`Option`. -/
structure WaitResult where
  status : String
  completed : Bool
  message : String
  task : Option Task
deriving DecidableEq, Repr

/-- The poller's numeric-state table,
`state_map = {0: "pending", 1: "running", 4: "done", 5: "error", 3: "cancelled"}`,
looked up with `state_map.get(task["state"], "unknown")`
(`system_tools.py`, `wait_for_task`). -/
def state_map (n : Int) : String :=
  if n = 0 then "pending"
  else if n = 1 then "running"
  else if n = 4 then "done"
  else if n = 5 then "error"
  else if n = 3 then "cancelled"
  else "unknown"

/-- Python's `str.lower()` applied to a state value, modelled per
character over the ASCII range (every state label the poller compares
against is ASCII). -/
def strLower (s : String) : String :=
  String.mk (s.data.map Char.toLower)

/-- State normalization performed by `wait_for_task`:
`state = task.get("state", "").lower() if isinstance(task.get("state"), str) else ""`
followed by the numeric override
`if isinstance(task.get("state"), int): state = state_map.get(task["state"], "unknown")`. -/
def normalizeState (t : Task) : String :=
  match t.state with
  | some (StateVal.str s) => strLower s
  | some (StateVal.int n) => state_map n
  | some StateVal.other => ""
  | none => ""

/-- The source's terminal-state test: `state in ("done", "error", "cancelled")`. -/
def isTerminal (s : String) : Bool :=
  s = "done" || s = "error" || s = "cancelled"

/-- The dict returned on timeout:
`{"status": "error", "completed": False, "message": f"Task {task_id} timed out after {timeout} seconds"}`. -/
def timeoutResult (taskId timeout : Int) : WaitResult :=
  { status := "error"
    completed := false
    message := "Task " ++ toString taskId ++ " timed out after " ++ toString timeout ++ " seconds"
    task := none }

/-- The dict returned on a terminal state:
`{"status": "success" if state == "done" else "error", "task": task, "completed": True, "message": f"Task completed with state: {state}"}`. -/
def terminalResult (t : Task) : WaitResult :=
  { status := if normalizeState t = "done" then "success" else "error"
    completed := true
    message := "Task completed with state: " ++ normalizeState t
    task := some t }

/-- The dict built by the poller's `except Exception` handler:
`{"status": "error", "completed": False, "message": str(e)}`. -/
def exnResult (msg : String) : WaitResult :=
  { status := "error", completed := false, message := msg, task := none }

/-- One run of the polling loop of `wait_for_task` over a trace of fetch
results, starting after `k` completed sleeps (so elapsed = `k * pollInterval`
under the cooperative clock model).  Returns the outcome (or `none` when the
trace is exhausted before the loop returns) together with the number of
fetches the loop performed.  Mirrors the source order: elapsed check, fetch,
state normalization, terminal check, sleep. -/
def waitRun (taskId timeout pollInterval : Int) (k : Nat) :
    List FetchResult → Option WaitResult × Nat
  | [] =>
    if (k : Int) * pollInterval > timeout then (some (timeoutResult taskId timeout), 0)
    else (none, 0)
  | f :: rest =>
    if (k : Int) * pollInterval > timeout then (some (timeoutResult taskId timeout), 0)
    else
      match f with
      | FetchResult.exn m => (some (exnResult m), 1)
      | FetchResult.ok t =>
        if isTerminal (normalizeState t) then (some (terminalResult t), 1)
        else
          let r := waitRun taskId timeout pollInterval (k + 1) rest
          (r.1, r.2 + 1)

/-- `wait_for_task(task_id, timeout, poll_interval)` run against a trace of
fetch results: the outcome of the call, or `none` when the trace is too short
to determine it. -/
def wait_for_task (taskId timeout pollInterval : Int) (fetches : List FetchResult) :
    Option WaitResult :=
  (waitRun taskId timeout pollInterval 0 fetches).1

/-- The number of status fetches `wait_for_task` performs on a trace. -/
def fetchCount (taskId timeout pollInterval : Int) (fetches : List FetchResult) : Nat :=
  (waitRun taskId timeout pollInterval 0 fetches).2

/-- The device-status table of `dvm_tools.py`,
`DEV_STATUS = {0: "none", 1: "unknown", 2: "checkedin", 3: "in_progress", 4: "installed", 5: "aborted"}`,
looked up by `_decode_status` with `DEV_STATUS.get(..., "unknown")`. -/
def DEV_STATUS (n : Int) : String :=
  if n = 0 then "none"
  else if n = 1 then "unknown"
  else if n = 2 then "checkedin"
  else if n = 3 then "in_progress"
  else if n = 4 then "installed"
  else if n = 5 then "aborted"
  else "unknown"

/-- A fetch that succeeds with a non-terminal task (the poller sleeps and
loops after it). -/
def nonTerminalOk : FetchResult → Bool
  | FetchResult.ok t => !(isTerminal (normalizeState t))
  | FetchResult.exn _ => false

/-- A task whose state field is the string `"running"`. -/
def runningTask : Task := { state := some (StateVal.str "running"), extra := 0 }

/-- A task whose state field is the string `"done"`. -/
def doneTask : Task := { state := some (StateVal.str "done"), extra := 0 }

/-- A successful fetch whose task state neither string-matches nor
integer-maps to a label the poller recognizes as terminal (missing field,
non-str/non-int value, unrecognized string, out-of-range integer). -/
def oddOk : FetchResult → Bool
  | FetchResult.ok t =>
    match t.state with
    | none => true
    | some StateVal.other => true
    | some (StateVal.int n) => !(n = 0 || n = 1 || n = 3 || n = 4 || n = 5)
    | some (StateVal.str s) => !(isTerminal (strLower s))
  | FetchResult.exn _ => false

/-- When the elapsed check already exceeds the budget, the loop returns the
timeout dict before fetching, whatever the remaining trace holds. -/
lemma waitRun_gt (taskId timeout pollInterval : Int) (k : Nat) (fs : List FetchResult)
    (hgt : (k : Int) * pollInterval > timeout) :
    waitRun taskId timeout pollInterval k fs = (some (timeoutResult taskId timeout), 0) := by
  cases fs <;> simp [waitRun, hgt]

/-- If the elapsed check has not fired after `k` sleeps, then `k` is at most
`timeout / pollInterval` (integer division, nonnegative budget). -/
lemma k_le_div_of_within (timeout pollInterval : Int) (k : Nat)
    (hp : 0 < pollInterval) (ht : 0 ≤ timeout)
    (h : (k : Int) * pollInterval ≤ timeout) :
    k ≤ timeout.toNat / pollInterval.toNat := by
  have hp0 : 0 < pollInterval.toNat := by omega
  rw [Nat.le_div_iff_mul_le hp0]
  have h2 : (k : Int) * ((pollInterval.toNat : Int)) ≤ ((timeout.toNat : Int)) := by
    rw [Int.toNat_of_nonneg hp.le, Int.toNat_of_nonneg ht]
    exact h
  exact_mod_cast h2

/-- After `timeout / pollInterval + 1` sleeps the elapsed check fires. -/
lemma elapsed_gt_of_budget (timeout pollInterval : Int) (k : Nat)
    (hp : 0 < pollInterval) (ht : 0 ≤ timeout)
    (h : timeout.toNat / pollInterval.toNat + 1 ≤ k) :
    (k : Int) * pollInterval > timeout := by
  have hp0 : 0 < pollInterval.toNat := by omega
  have hdm : pollInterval.toNat * (timeout.toNat / pollInterval.toNat) + timeout.toNat % pollInterval.toNat
      = timeout.toNat := Nat.div_add_mod _ _
  have hmod : timeout.toNat % pollInterval.toNat < pollInterval.toNat := Nat.mod_lt _ hp0
  have h3 : pollInterval.toNat * (timeout.toNat / pollInterval.toNat + 1) ≤ pollInterval.toNat * k :=
    Nat.mul_le_mul_left _ h
  have h4 : timeout.toNat < pollInterval.toNat * k := by
    have hexp : pollInterval.toNat * (timeout.toNat / pollInterval.toNat + 1)
        = pollInterval.toNat * (timeout.toNat / pollInterval.toNat) + pollInterval.toNat := by ring
    omega
  have h5 : (timeout : Int) < (pollInterval.toNat : Int) * (k : Int) := by
    have h4i : ((timeout.toNat : Int)) < ((pollInterval.toNat : Int)) * ((k : Int)) := by
      exact_mod_cast h4
    rwa [Int.toNat_of_nonneg ht] at h4i
  rw [Int.toNat_of_nonneg hp.le] at h5
  rw [gt_iff_lt, mul_comm]
  exact h5

/-- If the loop returns with a result dict that has a `task` key, it returned
through the terminal branch: the result is exactly the terminal dict for the
fetched payload, whose normalized state passed the terminal test. -/
lemma waitRun_task_eq (taskId timeout pollInterval : Int) :
    ∀ (fs : List FetchResult) (k : Nat) (r : WaitResult) (tk : Task),
      (waitRun taskId timeout pollInterval k fs).1 = some r → r.task = some tk →
      r = terminalResult tk ∧ isTerminal (normalizeState tk) = true := by
  intro fs
  induction fs with
  | nil =>
    intro k r tk hr htask
    by_cases hgt : (k : Int) * pollInterval > timeout
    · rw [waitRun_gt _ _ _ _ _ hgt] at hr
      simp only [Option.some.injEq] at hr
      subst hr
      simp [timeoutResult] at htask
    · simp [waitRun, hgt] at hr
  | cons f rest ih =>
    intro k r tk hr htask
    by_cases hgt : (k : Int) * pollInterval > timeout
    · rw [waitRun_gt _ _ _ _ _ hgt] at hr
      simp only [Option.some.injEq] at hr
      subst hr
      simp [timeoutResult] at htask
    · cases f with
      | exn m =>
        simp only [waitRun, hgt, if_false, ite_false] at hr
        simp only [Option.some.injEq] at hr
        subst hr
        simp [exnResult] at htask
      | ok t0 =>
        by_cases hterm : isTerminal (normalizeState t0) = true
        · simp only [waitRun, hgt, hterm, if_false, ite_false, if_true, ite_true] at hr
          simp only [Option.some.injEq] at hr
          subst hr
          simp only [terminalResult, Option.some.injEq] at htask
          subst htask
          exact ⟨rfl, hterm⟩
        · simp only [waitRun, hgt, hterm, if_false, ite_false] at hr
          exact ih (k + 1) r tk hr htask

/-- If the loop returns with `completed = false` (timeout or caught fetch
exception), the result dict has no `task` key. -/
lemma waitRun_task_none (taskId timeout pollInterval : Int) :
    ∀ (fs : List FetchResult) (k : Nat) (r : WaitResult),
      (waitRun taskId timeout pollInterval k fs).1 = some r → r.completed = false →
      r.task = none := by
  intro fs
  induction fs with
  | nil =>
    intro k r hr hc
    by_cases hgt : (k : Int) * pollInterval > timeout
    · rw [waitRun_gt _ _ _ _ _ hgt] at hr
      simp only [Option.some.injEq] at hr
      subst hr
      rfl
    · simp [waitRun, hgt] at hr
  | cons f rest ih =>
    intro k r hr hc
    by_cases hgt : (k : Int) * pollInterval > timeout
    · rw [waitRun_gt _ _ _ _ _ hgt] at hr
      simp only [Option.some.injEq] at hr
      subst hr
      rfl
    · cases f with
      | exn m =>
        simp only [waitRun, hgt, if_false, ite_false] at hr
        simp only [Option.some.injEq] at hr
        subst hr
        rfl
      | ok t0 =>
        by_cases hterm : isTerminal (normalizeState t0) = true
        · simp only [waitRun, hgt, hterm, if_false, ite_false, if_true, ite_true] at hr
          simp only [Option.some.injEq] at hr
          subst hr
          simp [terminalResult] at hc
        · simp only [waitRun, hgt, hterm, if_false, ite_false] at hr
          exact ih (k + 1) r hr hc

/-- One-step reduction: a fetch exception is caught and ends the loop. -/
lemma waitRun_cons_exn (taskId timeout pollInterval : Int) (k : Nat) (m : String)
    (l : List FetchResult) (hgt : ¬((k : Int) * pollInterval > timeout)) :
    waitRun taskId timeout pollInterval k (FetchResult.exn m :: l)
      = (some (exnResult m), 1) := by
  simp [waitRun, hgt]

/-- One-step reduction: a terminal fetch ends the loop. -/
lemma waitRun_cons_term (taskId timeout pollInterval : Int) (k : Nat) (t0 : Task)
    (l : List FetchResult) (hgt : ¬((k : Int) * pollInterval > timeout))
    (hterm : isTerminal (normalizeState t0) = true) :
    waitRun taskId timeout pollInterval k (FetchResult.ok t0 :: l)
      = (some (terminalResult t0), 1) := by
  simp [waitRun, hgt, hterm]

/-- One-step reduction: a non-terminal fetch sleeps and loops. -/
lemma waitRun_cons_ok (taskId timeout pollInterval : Int) (k : Nat) (t0 : Task)
    (l : List FetchResult) (hgt : ¬((k : Int) * pollInterval > timeout))
    (hterm : isTerminal (normalizeState t0) = false) :
    waitRun taskId timeout pollInterval k (FetchResult.ok t0 :: l)
      = ((waitRun taskId timeout pollInterval (k + 1) l).1,
         (waitRun taskId timeout pollInterval (k + 1) l).2 + 1) := by
  simp [waitRun, hgt, hterm]

/-- Once a trace determines the loop's outcome, appending further fetch
results changes neither the outcome nor the number of fetches performed:
terminal, timed-out and transport-failed outcomes are absorbing. -/
lemma waitRun_append (taskId timeout pollInterval : Int) :
    ∀ (fs : List FetchResult) (k : Nat) (rest : List FetchResult),
      (waitRun taskId timeout pollInterval k fs).1.isSome →
      waitRun taskId timeout pollInterval k (fs ++ rest)
        = waitRun taskId timeout pollInterval k fs := by
  intro fs
  induction fs with
  | nil =>
    intro k rest hsome
    by_cases hgt : (k : Int) * pollInterval > timeout
    · rw [waitRun_gt _ _ _ _ _ hgt, waitRun_gt _ _ _ _ _ hgt]
    · simp [waitRun, hgt] at hsome
  | cons f fs ih =>
    intro k rest hsome
    by_cases hgt : (k : Int) * pollInterval > timeout
    · rw [waitRun_gt _ _ _ _ _ hgt, waitRun_gt _ _ _ _ _ hgt]
    · cases f with
      | exn m =>
        rw [List.cons_append, waitRun_cons_exn _ _ _ _ _ _ hgt,
          waitRun_cons_exn _ _ _ _ _ _ hgt]
      | ok t0 =>
        by_cases hterm : isTerminal (normalizeState t0) = true
        · rw [List.cons_append, waitRun_cons_term _ _ _ _ _ _ hgt hterm,
            waitRun_cons_term _ _ _ _ _ _ hgt hterm]
        · have hterm' : isTerminal (normalizeState t0) = false := by
            simpa using hterm
          rw [waitRun_cons_ok _ _ _ _ _ _ hgt hterm'] at hsome
          rw [List.cons_append, waitRun_cons_ok _ _ _ _ _ _ hgt hterm',
            waitRun_cons_ok _ _ _ _ _ _ hgt hterm']
          rw [ih (k + 1) rest (by simpa using hsome)]

/-- Running the loop through a prefix of successful non-terminal fetches
that stays within the time budget just advances the sleep counter and adds
the prefix length to the fetch count. -/
lemma waitRun_pre (taskId timeout pollInterval : Int) :
    ∀ (pre : List FetchResult) (k : Nat) (fs : List FetchResult),
      (∀ f ∈ pre, nonTerminalOk f = true) →
      0 ≤ pollInterval →
      (((k + pre.length : Nat) : Int) * pollInterval ≤ timeout) →
      waitRun taskId timeout pollInterval k (pre ++ fs)
        = ((waitRun taskId timeout pollInterval (k + pre.length) fs).1,
           (waitRun taskId timeout pollInterval (k + pre.length) fs).2 + pre.length) := by
  intro pre
  induction pre with
  | nil =>
    intro k fs _ _ _
    simp
  | cons f pre ih =>
    intro k fs hall hp hbud
    have hf := hall f (List.mem_cons_self f pre)
    cases f with
    | exn m => simp [nonTerminalOk] at hf
    | ok t0 =>
      have hterm : isTerminal (normalizeState t0) = false := by
        simpa [nonTerminalOk] using hf
      simp only [List.length_cons] at hbud
      have hklen : (k : Int) ≤ ((k + (pre.length + 1) : Nat) : Int) := by
        exact_mod_cast Nat.le_add_right k (pre.length + 1)
      have hgt : ¬((k : Int) * pollInterval > timeout) := by
        rw [not_lt]
        calc (k : Int) * pollInterval
            ≤ ((k + (pre.length + 1) : Nat) : Int) * pollInterval :=
              mul_le_mul_of_nonneg_right hklen hp
          _ ≤ timeout := hbud
      have hbud' : (((k + 1) + pre.length : Nat) : Int) * pollInterval ≤ timeout := by
        rw [show (k + 1) + pre.length = k + (pre.length + 1) from by omega]
        exact hbud
      have hall' : ∀ f ∈ pre, nonTerminalOk f = true :=
        fun f hf => hall f (List.mem_cons_of_mem _ hf)
      rw [List.cons_append, waitRun_cons_ok _ _ _ _ _ _ hgt hterm]
      rw [ih (k + 1) fs hall' hp hbud']
      rw [show (k + 1) + pre.length = k + (pre.length + 1) from by omega]
      rw [List.length_cons, Nat.add_assoc]

/-- If every fetch in the trace succeeds with a non-terminal state and the
trace is long enough to exhaust the budget, the loop returns the timeout
dict. -/
lemma waitRun_timeout (taskId timeout pollInterval : Int)
    (hp : 0 < pollInterval) (ht : 0 ≤ timeout) :
    ∀ (fs : List FetchResult) (k : Nat),
      (∀ f ∈ fs, nonTerminalOk f = true) →
      timeout.toNat / pollInterval.toNat + 1 ≤ k + fs.length →
      (waitRun taskId timeout pollInterval k fs).1 = some (timeoutResult taskId timeout) := by
  intro fs
  induction fs with
  | nil =>
    intro k _ hlen
    have hgt : (k : Int) * pollInterval > timeout :=
      elapsed_gt_of_budget timeout pollInterval k hp ht (by simpa using hlen)
    rw [waitRun_gt _ _ _ _ _ hgt]
  | cons f rest ih =>
    intro k hall hlen
    by_cases hgt : (k : Int) * pollInterval > timeout
    · rw [waitRun_gt _ _ _ _ _ hgt]
    · have hf := hall f (List.mem_cons_self f rest)
      cases f with
      | exn m => simp [nonTerminalOk] at hf
      | ok t0 =>
        have hterm : isTerminal (normalizeState t0) = false := by
          simpa [nonTerminalOk] using hf
        simp only [waitRun, hgt, hterm, if_false, ite_false, Bool.false_eq_true]
        refine ih (k + 1) (fun f hf => hall f (List.mem_cons_of_mem _ hf)) ?_
        simp only [List.length_cons] at hlen
        omega

/-- The loop performs at most `timeout / pollInterval + 1 - k` further
fetches after `k` completed sleeps (positive interval, nonnegative budget). -/
lemma waitRun_count (taskId timeout pollInterval : Int)
    (hp : 0 < pollInterval) (ht : 0 ≤ timeout) :
    ∀ (fs : List FetchResult) (k : Nat),
      (waitRun taskId timeout pollInterval k fs).2
        ≤ timeout.toNat / pollInterval.toNat + 1 - k := by
  intro fs
  induction fs with
  | nil =>
    intro k
    by_cases hgt : (k : Int) * pollInterval > timeout
    · rw [waitRun_gt _ _ _ _ _ hgt]
      exact Nat.zero_le _
    · simp [waitRun, hgt]
  | cons f rest ih =>
    intro k
    by_cases hgt : (k : Int) * pollInterval > timeout
    · rw [waitRun_gt _ _ _ _ _ hgt]
      exact Nat.zero_le _
    · have hk : k ≤ timeout.toNat / pollInterval.toNat :=
        k_le_div_of_within timeout pollInterval k hp ht (not_lt.mp hgt)
      cases f with
      | exn m =>
        simp only [waitRun, hgt, if_false, ite_false]
        omega
      | ok t0 =>
        by_cases hterm : isTerminal (normalizeState t0) = true
        · simp only [waitRun, hgt, hterm, if_false, ite_false, if_true, ite_true]
          omega
        · simp only [waitRun, hgt, hterm, if_false, ite_false, Bool.false_eq_true]
          have := ih (k + 1)
          omega

/-- C1: whenever `wait_for_task` returns an outcome carrying a task payload
(which happens exactly when a status fetch observed a terminal normalized
state), the dict has `completed = true`, its `status` is `"success"` exactly
when the terminal state is `"done"`, and the terminal states `"error"` and
`"cancelled"` yield `status = "error"` with `completed = true`. -/
theorem c1_terminal_classification (taskId timeout pollInterval : Int)
    (fetches : List FetchResult) (r : WaitResult) (tk : Task)
    (hres : wait_for_task taskId timeout pollInterval fetches = some r)
    (htask : r.task = some tk) :
    r.completed = true ∧
      isTerminal (normalizeState tk) = true ∧
      (r.status = "success" ↔ normalizeState tk = "done") ∧
      (normalizeState tk = "error" ∨ normalizeState tk = "cancelled" →
        r.status = "error" ∧ r.completed = true) := by
  obtain ⟨hr, hterm⟩ :=
    waitRun_task_eq taskId timeout pollInterval fetches 0 r tk hres htask
  subst hr
  refine ⟨rfl, hterm, ?_, ?_⟩
  · constructor
    · intro hs
      by_contra hne
      simp [terminalResult, hne] at hs
    · intro hd
      simp [terminalResult, hd]
  · intro hor
    have hne : normalizeState tk ≠ "done" := by
      rcases hor with h | h <;> simp [h]
    exact ⟨by simp [terminalResult, hne], rfl⟩

/-- C1 witness: a concrete run in which the single fetch reports state
`"done"`. -/
theorem c1_witness :
    (terminalResult doneTask).completed = true ∧
      isTerminal (normalizeState doneTask) = true ∧
      ((terminalResult doneTask).status = "success" ↔ normalizeState doneTask = "done") ∧
      (normalizeState doneTask = "error" ∨ normalizeState doneTask = "cancelled" →
        (terminalResult doneTask).status = "error" ∧ (terminalResult doneTask).completed = true) :=
  c1_terminal_classification 1 300 5 [FetchResult.ok doneTask]
    (terminalResult doneTask) doneTask (by decide) (by decide)

/-- C3 counterexample: with `timeout = 3`, `poll_interval = 5` and a first
fetch that succeeds with state `"running"`, the call times out and the
returned dict carries no task payload at all, although a status fetch
succeeded before the timeout — contradicting the claim that the timeout
outcome carries the last-observed payload whenever a fetch succeeded. -/
theorem c3_counterexample :
    wait_for_task 1 3 5 [FetchResult.ok runningTask] = some (timeoutResult 1 3) ∧
      (timeoutResult 1 3).task = none ∧
      (timeoutResult 1 3).completed = false := by
  decide

/-- C3 amended: the timeout (and caught-fetch-failure) outcome of
`wait_for_task` never carries a task payload, regardless of how many status
fetches succeeded before it: every returned dict with `completed = false`
has no `task` key. -/
theorem c3_timeout_carries_no_payload (taskId timeout pollInterval : Int)
    (fetches : List FetchResult) (r : WaitResult)
    (hres : wait_for_task taskId timeout pollInterval fetches = some r)
    (hc : r.completed = false) :
    r.task = none :=
  waitRun_task_none taskId timeout pollInterval fetches 0 r hres hc

/-- C3 witness: the amended statement at the concrete timed-out run. -/
theorem c3_witness : (timeoutResult 1 3).task = none :=
  c3_timeout_carries_no_payload 1 3 5 [FetchResult.ok runningTask]
    (timeoutResult 1 3) (by decide) (by decide)

/-- C6: integer state codes are normalized through the poller's
`state_map` exactly as the corresponding string labels: integer 4 is
treated as `"done"`, 5 as `"error"`, 3 as `"cancelled"`, 0 as `"pending"`,
1 as `"running"`; in particular a poll returning integer state 5 yields a
return with `completed = true` and `status = "error"`. -/
theorem c6_numeric_state_mapping (e : Nat) :
    normalizeState { state := some (StateVal.int 4), extra := e }
        = normalizeState { state := some (StateVal.str "done"), extra := e } ∧
      normalizeState { state := some (StateVal.int 4), extra := e } = "done" ∧
      normalizeState { state := some (StateVal.int 5), extra := e } = "error" ∧
      normalizeState { state := some (StateVal.int 3), extra := e } = "cancelled" ∧
      normalizeState { state := some (StateVal.int 0), extra := e } = "pending" ∧
      normalizeState { state := some (StateVal.int 1), extra := e } = "running" ∧
      (wait_for_task 789 300 5
          [FetchResult.ok { state := some (StateVal.int 5), extra := e }]).map
          (fun r => (r.completed, r.status))
        = some (true, "error") :=
  ⟨rfl, rfl, rfl, rfl, rfl, rfl, rfl⟩

/-- C8: the poller's integer-to-label task-state table `state_map` and the
device-status table `DEV_STATUS` of `dvm_tools.py` are two distinct
mappings: they disagree on the shared codes 4 and 5, so the two decoders
are not equal as functions. -/
theorem c8_state_tables_distinct :
    state_map 0 = "pending" ∧ state_map 1 = "running" ∧ state_map 4 = "done" ∧
      state_map 5 = "error" ∧ state_map 3 = "cancelled" ∧
      DEV_STATUS 4 = "installed" ∧ DEV_STATUS 5 = "aborted" ∧
      state_map 4 ≠ DEV_STATUS 4 ∧ state_map 5 ≠ DEV_STATUS 5 ∧
      state_map ≠ DEV_STATUS := by
  refine ⟨rfl, rfl, rfl, rfl, rfl, rfl, rfl, by decide, by decide, ?_⟩
  intro h
  exact absurd (congrFun h 4) (by decide)

/-- C7: the poller returns on the first fetch whose normalized state is
terminal — the payload in the result is exactly that fetch's payload and
the fetch count is the prefix length plus one, so no fetch happens after a
terminal state is observed — and every produced outcome (terminal,
timed-out, or transport-failed) is absorbing: extending the trace changes
neither the outcome nor the number of fetches performed. -/
theorem c7_first_terminal_absorbing (taskId timeout pollInterval : Int) :
    (∀ (fetches rest : List FetchResult) (r : WaitResult),
        wait_for_task taskId timeout pollInterval fetches = some r →
        wait_for_task taskId timeout pollInterval (fetches ++ rest) = some r ∧
          fetchCount taskId timeout pollInterval (fetches ++ rest)
            = fetchCount taskId timeout pollInterval fetches) ∧
    (∀ (pre rest : List FetchResult) (tk : Task),
        (∀ f ∈ pre, nonTerminalOk f = true) →
        0 ≤ pollInterval →
        ((pre.length : Nat) : Int) * pollInterval ≤ timeout →
        isTerminal (normalizeState tk) = true →
        wait_for_task taskId timeout pollInterval (pre ++ FetchResult.ok tk :: rest)
            = some (terminalResult tk) ∧
          fetchCount taskId timeout pollInterval (pre ++ FetchResult.ok tk :: rest)
            = pre.length + 1) := by
  constructor
  · intro fetches rest r hres
    unfold wait_for_task at hres
    have habs := waitRun_append taskId timeout pollInterval fetches 0 rest
      (by rw [hres]; rfl)
    constructor
    · unfold wait_for_task
      rw [habs]
      exact hres
    · unfold fetchCount
      rw [habs]
  · intro pre rest tk hall hp hbud hterm
    have hbud0 : (((0 + pre.length : Nat)) : Int) * pollInterval ≤ timeout := by
      simpa using hbud
    have hpre := waitRun_pre taskId timeout pollInterval pre 0
      (FetchResult.ok tk :: rest) hall hp hbud0
    have hgt0 : ¬(((0 + pre.length : Nat) : Int) * pollInterval > timeout) := by
      simpa using not_lt.mpr hbud
    have hstep := waitRun_cons_term taskId timeout pollInterval (0 + pre.length)
      tk rest hgt0 hterm
    constructor
    · unfold wait_for_task
      rw [hpre, hstep]
    · unfold fetchCount
      rw [hpre, hstep]
      exact Nat.add_comm 1 pre.length

/-- C7 witness: one non-terminal fetch, then a terminal `"done"` fetch,
then a further entry the poller never consumes. -/
theorem c7_witness :
    wait_for_task 1 300 5
        [FetchResult.ok runningTask, FetchResult.ok doneTask, FetchResult.ok runningTask]
        = some (terminalResult doneTask) ∧
      fetchCount 1 300 5
        [FetchResult.ok runningTask, FetchResult.ok doneTask, FetchResult.ok runningTask]
        = 2 := by
  have h := (c7_first_terminal_absorbing 1 300 5).2 [FetchResult.ok runningTask]
    [FetchResult.ok runningTask] doneTask (by decide) (by decide) (by decide) (by decide)
  exact ⟨h.1, h.2⟩

/-- C9 counterexample: an unrecognized string state is normalized to its
lowercased self, not to `""` or `"unknown"` as the claim states: a task
with state `"banana"` normalizes to `"banana"` (which is still
non-terminal). -/
theorem c9_counterexample :
    normalizeState { state := some (StateVal.str "banana"), extra := 0 } = "banana" ∧
      ¬(normalizeState { state := some (StateVal.str "banana"), extra := 0 } = "" ∨
        normalizeState { state := some (StateVal.str "banana"), extra := 0 } = "unknown") ∧
      isTerminal (normalizeState { state := some (StateVal.str "banana"), extra := 0 })
        = false := by
  decide

/-- C9 amended: a fetched task whose state is missing, of non-int/non-str
type, an unrecognized string, or an integer outside `{0,1,3,4,5}` is
normalized without raising to a non-terminal value — `""` for a missing or
non-int/non-str state, `"unknown"` for an out-of-range integer, and the
lowercased string itself for an unrecognized string — and the poller keeps
polling such a task until the timeout elapses instead of classifying it as
completed. -/
theorem c9_odd_states_keep_polling (taskId timeout pollInterval : Int)
    (hp : 0 < pollInterval) (ht : 0 ≤ timeout)
    (fetches : List FetchResult)
    (hall : ∀ f ∈ fetches, oddOk f = true)
    (hlen : timeout.toNat / pollInterval.toNat + 1 ≤ fetches.length) :
    (∀ e : Nat, normalizeState { state := none, extra := e } = "") ∧
      (∀ e : Nat, normalizeState { state := some StateVal.other, extra := e } = "") ∧
      (∀ (n : Int) (e : Nat), n ≠ 0 → n ≠ 1 → n ≠ 3 → n ≠ 4 → n ≠ 5 →
        normalizeState { state := some (StateVal.int n), extra := e } = "unknown") ∧
      (∀ tk : Task, oddOk (FetchResult.ok tk) = true →
        isTerminal (normalizeState tk) = false) ∧
      wait_for_task taskId timeout pollInterval fetches
        = some (timeoutResult taskId timeout) ∧
      (timeoutResult taskId timeout).completed = false := by
  have hkey : ∀ tk : Task, oddOk (FetchResult.ok tk) = true →
      isTerminal (normalizeState tk) = false := by
    intro tk hodd
    rcases tk with ⟨st, e⟩
    cases st with
    | none => rfl
    | some v =>
      cases v with
      | other => rfl
      | int n =>
        simp only [oddOk, Bool.not_eq_true', Bool.or_eq_false_iff,
          decide_eq_false_iff_not] at hodd
        obtain ⟨⟨⟨⟨h0, h1⟩, h3⟩, h4⟩, h5⟩ := hodd
        simp [normalizeState, state_map, h0, h1, h3, h4, h5, isTerminal]
      | str s =>
        simp only [oddOk, Bool.not_eq_true'] at hodd
        simpa [normalizeState] using hodd
  have hall' : ∀ f ∈ fetches, nonTerminalOk f = true := by
    intro f hf
    have hodd := hall f hf
    cases f with
    | exn m => simp [oddOk] at hodd
    | ok tk =>
      simp only [nonTerminalOk, Bool.not_eq_true']
      rw [hkey tk hodd]
  refine ⟨fun e => rfl, fun e => rfl, ?_, hkey, ?_, rfl⟩
  · intro n e h0 h1 h3 h4 h5
    simp [normalizeState, state_map, h0, h1, h3, h4, h5]
  · exact waitRun_timeout taskId timeout pollInterval hp ht fetches 0 hall' (by omega)

/-- C9 witness: a trace of three odd-state fetches (missing state, integer
2, string `"banana"`) with `timeout = 10`, `poll_interval = 5`, ending in a
timeout. -/
theorem c9_witness :
    (∀ e : Nat, normalizeState { state := none, extra := e } = "") ∧
      (∀ e : Nat, normalizeState { state := some StateVal.other, extra := e } = "") ∧
      (∀ (n : Int) (e : Nat), n ≠ 0 → n ≠ 1 → n ≠ 3 → n ≠ 4 → n ≠ 5 →
        normalizeState { state := some (StateVal.int n), extra := e } = "unknown") ∧
      (∀ tk : Task, oddOk (FetchResult.ok tk) = true →
        isTerminal (normalizeState tk) = false) ∧
      wait_for_task 1 10 5
          [FetchResult.ok { state := none, extra := 0 },
           FetchResult.ok { state := some (StateVal.int 2), extra := 0 },
           FetchResult.ok { state := some (StateVal.str "banana"), extra := 0 }]
        = some (timeoutResult 1 10) ∧
      (timeoutResult 1 10).completed = false :=
  c9_odd_states_keep_polling 1 10 5 (by decide) (by decide)
    [FetchResult.ok { state := none, extra := 0 },
     FetchResult.ok { state := some (StateVal.int 2), extra := 0 },
     FetchResult.ok { state := some (StateVal.str "banana"), extra := 0 }]
    (by decide) (by decide)

/-- C10: `wait_for_task` never validates its numeric arguments: under the
cooperative clock model (elapsed is nonnegative, zero before the first
fetch), any call with `timeout < 0` returns the timeout dict with
`completed = false` after performing zero status fetches, instead of
rejecting the out-of-range argument. -/
theorem c10_negative_timeout_unvalidated (taskId timeout pollInterval : Int)
    (fetches : List FetchResult) (h : timeout < 0) :
    wait_for_task taskId timeout pollInterval fetches
        = some (timeoutResult taskId timeout) ∧
      fetchCount taskId timeout pollInterval fetches = 0 ∧
      (timeoutResult taskId timeout).completed = false := by
  have hgt : ((0 : Nat) : Int) * pollInterval > timeout := by
    simp only [Nat.cast_zero, zero_mul]
    omega
  have hz := waitRun_gt taskId timeout pollInterval 0 fetches hgt
  exact ⟨by unfold wait_for_task; rw [hz], by unfold fetchCount; rw [hz], rfl⟩

/-- C2 counterexample: a status-fetch exception is not propagated and its
outcome is not distinguishable from a timeout.  A raise on the first fetch
whose message happens to read like the timeout message produces a return
value literally equal to the outcome of a genuine timeout run (61 fetches
all returning `"running"` with `timeout = 300`, `poll_interval = 5`): both
are the same dict `{status: "error", completed: false, message: ...}` with
no task payload. -/
theorem c2_counterexample :
    wait_for_task 1 300 5 [FetchResult.exn "Task 1 timed out after 300 seconds"]
        = wait_for_task 1 300 5 (List.replicate 61 (FetchResult.ok runningTask)) ∧
      wait_for_task 1 300 5 (List.replicate 61 (FetchResult.ok runningTask))
        = some (timeoutResult 1 300) := by
  constructor <;> decide

/-- C2 amended: a status-fetch exception is caught by the poller's
`except Exception` handler, not propagated: the call returns
`{status: "error", completed: false, message: str(e)}` immediately after
the failing fetch, with no task payload and no further fetch (so the
failure is not internally retried).  This outcome differs from every
terminal-state outcome (those have `completed = true` and a payload), but
it is structurally identical to the timeout outcome, differing only in the
message text — in particular a raise on the first fetch yields this error
dict rather than an exception or a timeout message. -/
theorem c2_exn_outcome (taskId timeout pollInterval : Int)
    (pre rest : List FetchResult) (m : String)
    (hall : ∀ f ∈ pre, nonTerminalOk f = true)
    (hp : 0 ≤ pollInterval)
    (hbudget : ((pre.length : Nat) : Int) * pollInterval ≤ timeout) :
    wait_for_task taskId timeout pollInterval (pre ++ FetchResult.exn m :: rest)
        = some (exnResult m) ∧
      fetchCount taskId timeout pollInterval (pre ++ FetchResult.exn m :: rest)
        = pre.length + 1 ∧
      (exnResult m).completed = false ∧
      (exnResult m).task = none ∧
      (exnResult m).status = "error" ∧
      (exnResult m).message = m ∧
      (∀ tk : Task, exnResult m ≠ terminalResult tk) := by
  have hbud0 : (((0 + pre.length : Nat)) : Int) * pollInterval ≤ timeout := by
    simpa using hbudget
  have hpre := waitRun_pre taskId timeout pollInterval pre 0
    (FetchResult.exn m :: rest) hall hp hbud0
  have hgt : ¬(((pre.length : Nat) : Int) * pollInterval > timeout) := not_lt.mpr hbudget
  have hgt0 : ¬(((0 + pre.length : Nat) : Int) * pollInterval > timeout) := by
    simpa using hgt
  have hstep := waitRun_cons_exn taskId timeout pollInterval (0 + pre.length) m rest hgt0
  refine ⟨?_, ?_, rfl, rfl, rfl, rfl, ?_⟩
  · unfold wait_for_task
    rw [hpre, hstep]
  · unfold fetchCount
    rw [hpre, hstep]
    exact Nat.add_comm 1 pre.length
  · intro tk hcontra
    have := congrArg WaitResult.completed hcontra
    simp [exnResult, terminalResult] at this

/-- C2 witness: one successful non-terminal fetch, then a fetch that raises
with message `"boom"`. -/
theorem c2_witness :
    wait_for_task 1 300 5 [FetchResult.ok runningTask, FetchResult.exn "boom"]
        = some (exnResult "boom") ∧
      fetchCount 1 300 5 [FetchResult.ok runningTask, FetchResult.exn "boom"] = 2 ∧
      (exnResult "boom").completed = false ∧
      (exnResult "boom").task = none ∧
      (exnResult "boom").status = "error" ∧
      (exnResult "boom").message = "boom" ∧
      (∀ tk : Task, exnResult "boom" ≠ terminalResult tk) :=
  c2_exn_outcome 1 300 5 [FetchResult.ok runningTask] [] "boom"
    (by decide) (by decide) (by decide)

/-- C4: if the status fetch always succeeds with a non-terminal state and
this goes on long enough to exhaust the budget (`timeout/poll_interval + 1`
iterations under the cooperative clock), `wait_for_task` returns — as an
ordinary value, never an exception — the dict with `completed = false`
whose message mentions the timeout. -/
theorem c4_timeout_outcome (taskId timeout pollInterval : Int)
    (hp : 0 < pollInterval) (ht : 0 ≤ timeout)
    (fetches : List FetchResult)
    (hall : ∀ f ∈ fetches, nonTerminalOk f = true)
    (hlen : timeout.toNat / pollInterval.toNat + 1 ≤ fetches.length) :
    wait_for_task taskId timeout pollInterval fetches
        = some (timeoutResult taskId timeout) ∧
      (timeoutResult taskId timeout).completed = false ∧
      (timeoutResult taskId timeout).message
        = "Task " ++ toString taskId ++ " timed out after " ++ toString timeout
            ++ " seconds" := by
  refine ⟨?_, rfl, rfl⟩
  exact waitRun_timeout taskId timeout pollInterval hp ht fetches 0 hall (by omega)

/-- C4 witness: `timeout = 10`, `poll_interval = 5`, three fetches all
returning `"running"`. -/
theorem c4_witness :
    wait_for_task 1 10 5 (List.replicate 3 (FetchResult.ok runningTask))
        = some (timeoutResult 1 10) ∧
      (timeoutResult 1 10).completed = false ∧
      (timeoutResult 1 10).message
        = "Task " ++ toString (1 : Int) ++ " timed out after " ++ toString (10 : Int)
            ++ " seconds" :=
  c4_timeout_outcome 1 10 5 (by decide) (by decide)
    (List.replicate 3 (FetchResult.ok runningTask)) (by decide) (by decide)

/-- C5: for positive `timeout` and `poll_interval`, a single invocation of
`wait_for_task` performs at most `ceil(timeout / poll_interval) + 1` status
fetches (the ceiling written as `(timeout + poll_interval - 1) / poll_interval`
over the nonnegative integers), whatever the fetch trace holds. -/
theorem c5_fetch_bound (taskId timeout pollInterval : Int)
    (hp : 0 < pollInterval) (ht : 0 < timeout) (fetches : List FetchResult) :
    fetchCount taskId timeout pollInterval fetches
      ≤ (timeout.toNat + pollInterval.toNat - 1) / pollInterval.toNat + 1 := by
  have h1 := waitRun_count taskId timeout pollInterval hp ht.le fetches 0
  have h2 : timeout.toNat / pollInterval.toNat
      ≤ (timeout.toNat + pollInterval.toNat - 1) / pollInterval.toNat :=
    Nat.div_le_div_right (by omega)
  unfold fetchCount
  have h1' : (waitRun taskId timeout pollInterval 0 fetches).2
      ≤ timeout.toNat / pollInterval.toNat + 1 := by simpa using h1
  exact le_trans h1' (Nat.add_le_add_right h2 1)

/-- C5 witness: the bound at `timeout = 10`, `poll_interval = 5` on a trace
of five non-terminal fetches (the poller stops after three). -/
theorem c5_witness :
    fetchCount 1 10 5 (List.replicate 5 (FetchResult.ok runningTask))
      ≤ ((10 : Int).toNat + (5 : Int).toNat - 1) / (5 : Int).toNat + 1 :=
  c5_fetch_bound 1 10 5 (by decide) (by decide)
    (List.replicate 5 (FetchResult.ok runningTask))

/-- C10 witness: a negative timeout with a trace whose first fetch would
even report a terminal state — the poller still returns the timeout dict
without fetching. -/
theorem c10_witness :
    wait_for_task 1 (-1) 5 [FetchResult.ok doneTask] = some (timeoutResult 1 (-1)) ∧
      fetchCount 1 (-1) 5 [FetchResult.ok doneTask] = 0 ∧
      (timeoutResult 1 (-1)).completed = false :=
  c10_negative_timeout_unvalidated 1 (-1) 5 [FetchResult.ok doneTask] (by decide)

end FMG
